import Mathlib

/-!
Verification of the aggregation-and-rendering pipeline of
`screen_time_checker.py` (macOS screen-time reporting tool).

The script's pure computations are modelled over exact rationals `ℚ`
(the Python code computes on reals coming from the event database);
Python-specific primitives (`int()` truncation, `//`, `%`, `str.format`
fixed-point rendering, string repetition and padding) are given
explicit Lean counterparts below, each named after the construct it
models.
-/

namespace ScreenTime

/-- Python `int(x)` on a real `x`: truncation toward zero. -/
def pyTrunc (q : ℚ) : ℤ :=
  if 0 ≤ q then ⌊q⌋ else ⌈q⌉

/-- Rounding to the nearest integer with ties to even, as performed by
Python's fixed-point formatting `"{:.0f}"` on an exact value. -/
def roundHalfEven (q : ℚ) : ℤ :=
  if q - ⌊q⌋ < 1 / 2 then ⌊q⌋
  else if 1 / 2 < q - ⌊q⌋ then ⌊q⌋ + 1
  else if ⌊q⌋ % 2 = 0 then ⌊q⌋ else ⌊q⌋ + 1

/-- Python `"{:.0f}".format(q)`: nearest-integer rendering. -/
def fmtFixed0 (q : ℚ) : String :=
  toString (roundHalfEven q)

/-- Python `"{:.1f}".format(q)` for `q ≥ 0`: one decimal place. -/
def fmtFixed1 (q : ℚ) : String :=
  toString (roundHalfEven (q * 10) / 10) ++ "." ++ toString (roundHalfEven (q * 10) % 10)

/-- Python `a // b` on reals: floor division. -/
def pyFloorDiv (a b : ℚ) : ℤ :=
  ⌊a / b⌋

/-- Python `a % b` on reals (`b > 0` in all uses here). -/
def pyMod (a b : ℚ) : ℚ :=
  a - b * (⌊a / b⌋ : ℚ)

/-- Python `c * n` string repetition (empty for a non-positive count). -/
def repChar (c : Char) (n : ℕ) : String :=
  String.mk (List.replicate n c)

/-- Python `"{:<w}".format(s)` / `str.ljust`: pad on the right to width `w`. -/
def padRight (s : String) (w : ℕ) : String :=
  s ++ repChar ' ' (w - s.length)

/-- Python `"{:>w}"`-style padding on the left to width `w` (as done by a
format width such as `{:4.1f}` or `{:2d}` on short output). -/
def padLeft (s : String) (w : ℕ) : String :=
  repChar ' ' (w - s.length) ++ s

/-- Function `ScreenTimeChecker.format_time(seconds)` from `screen_time_checker.py`
(lines 137–149): `<60` → whole seconds; `<3600` → minutes with one
decimal; otherwise hours and whole minutes if the minute remainder is
positive, else hours with one decimal. -/
def formatTime (seconds : ℚ) : String :=
  if seconds < 60 then fmtFixed0 seconds ++ "秒"
  else if seconds < 3600 then fmtFixed1 (seconds / 60) ++ "分钟"
  else
    let hours : ℤ := pyFloorDiv seconds 3600
    let minutes : ℤ := pyFloorDiv (pyMod seconds 3600) 60
    if 0 < minutes then fmtFixed0 (hours : ℚ) ++ "小时" ++ fmtFixed0 (minutes : ℚ) ++ "分钟"
    else fmtFixed1 (hours : ℚ) ++ "小时"


/-- Step of `ScreenTimeChecker.create_bar_chart`: name truncation applied to
resolved display names (lines 161–162). -/
def truncName (name : String) : String :=
  if 15 < name.length then name.take 12 ++ "..." else name

/-- Computation `total_seconds = sum(seconds for _, seconds in usage_data)`
(line 271, also the inline `sum` on line 168). -/
def totalSeconds (usage : List (String × ℚ)) : ℚ :=
  (usage.map Prod.snd).sum

/-- Computation `max(seconds for _, seconds in usage_data)` (line 156): Python `max`
over the (non-empty) sequence of per-record seconds. -/
def maxSeconds (usage : List (String × ℚ)) : ℚ :=
  match usage with
  | [] => 0
  | p :: rest => (rest.map Prod.snd).foldl max p.2

/-- Computation `bar_length = int((seconds / max_seconds) * max_width)` (line 165)
with the fixed `max_width = 30`. -/
def barLen (seconds maxS : ℚ) : ℤ :=
  pyTrunc (seconds / maxS * 30)

/-- Computation `bar = "█" * bar_length + "░" * (max_width - bar_length)` (line 166). -/
def mkBar (seconds maxS : ℚ) : String :=
  repChar '█' (barLen seconds maxS).toNat ++ repChar '░' ((30 : ℤ) - barLen seconds maxS).toNat

/-- Computation `percentage = (seconds / total) * 100` (lines 168 and 312). -/
def pctOf (seconds total : ℚ) : ℚ :=
  seconds / total * 100

/-- One line of the bar chart (line 171):
`f"{app_name:<15} {bar} {percentage:4.1f}% ({time_str})"`. The
`resolve` parameter models the external `get_app_name` lookup. -/
def barChartLine (resolve : String → String) (maxS total : ℚ) (p : String × ℚ) : String :=
  padRight (truncName (resolve p.1)) 15 ++ " " ++ mkBar p.2 maxS ++ " " ++
    padLeft (fmtFixed1 (pctOf p.2 total)) 4 ++ "% (" ++ formatTime p.2 ++ ")"

/-- Function `ScreenTimeChecker.create_bar_chart(usage_data, max_width=30)`
(lines 151–173): empty input yields no lines, otherwise one line per
record. -/
def createBarChart (resolve : String → String) (usage : List (String × ℚ)) : List String :=
  match usage with
  | [] => []
  | _ :: _ => usage.map (barChartLine resolve (maxSeconds usage) (totalSeconds usage))

/-- A raw usage interval as returned by the hourly SQL query of
`get_hourly_usage` (lines 186–199): bundle id, start and end time (both
already shifted to the Unix epoch); the selected `duration` column is
`end - start`. -/
structure UsageInterval where
  bundle : String
  start : ℚ
  stop : ℚ
deriving DecidableEq

/-- The `duration` column: `ZENDDATE - ZSTARTDATE`. -/
def UsageInterval.duration (r : UsageInterval) : ℚ :=
  r.stop - r.start

/-- The bucket dictionary `{i: 0 for i in range(24)}` (lines 206–208). -/
def bucketInit : Fin 24 → ℚ :=
  fun _ => 0

/-- The accumulation loop of `get_hourly_usage` (lines 210–212):
`hourly_usage[start_hour] += duration`, where
`start_hour = datetime.fromtimestamp(start_time).hour`. The local-time
hour extraction is external (timezone-dependent) and is passed in as
`hourOf`. -/
def getHourlyUsage (hourOf : ℚ → Fin 24) (records : List UsageInterval) : Fin 24 → ℚ :=
  records.foldl
    (fun acc r => Function.update acc (hourOf r.start) (acc (hourOf r.start) + r.duration))
    bucketInit

/-- Python `max(l)` over a sequence, with a default for the (never
taken here) empty case. -/
def pyMax (l : List ℚ) (dflt : ℚ) : ℚ :=
  match l with
  | [] => dflt
  | x :: xs => xs.foldl max x

/-- The 24 bucket values of an hourly-usage dictionary, in key order
0, 1, …, 23. -/
def bucketValues (hourly : Fin 24 → ℚ) : List ℚ :=
  (List.finRange 24).map hourly

/-- Computation `height = int((usage / max_usage) * max_height)` (line 236) with the
fixed `max_height = 8`. -/
def chartHeight (usage maxU : ℚ) : ℤ :=
  pyTrunc (usage / maxU * 8)

/-- One level row of the hourly chart (lines 232–241): for each hour a
filled cell iff that hour's height reaches the current level. -/
def hourlyRow (hourly : Fin 24 → ℚ) (maxU : ℚ) (level : ℕ) : String :=
  String.mk ((List.finRange 24).map
    (fun h => if (level : ℤ) ≤ chartHeight (hourly h) maxU then '█' else ' '))

/-- The hour-label axis row (lines 244–246):
`f"{hour:2d}".ljust(3)` for `hour in range(0, 24, 3)`. -/
def hourLabels : String :=
  String.join ((List.range 8).map (fun k => padRight (padLeft (toString (3 * k)) 2) 3))

/-- Function `ScreenTimeChecker.create_hourly_chart(hourly_usage, max_height=8)`
(lines 220–251) on a populated 24-key bucket dictionary: level rows from
8 down to 1, a dash separator, and the hour labels. `max_usage` is the
maximum bucket value, replaced by 1 when it is 0 (lines 225–227). -/
def createHourlyChart (hourly : Fin 24 → ℚ) : List String :=
  let maxU0 := pyMax (bucketValues hourly) 1
  let maxU := if maxU0 = 0 then 1 else maxU0
  ((List.range 8).map (fun k => hourlyRow hourly maxU (8 - k))) ++
    [repChar '-' 24, hourLabels]

/-- The window-label dispatch of `print_usage_report` (lines 262–269). -/
def periodLabel (days : ℤ) : String :=
  if days = 1 then "过去 24 小时"
  else if days = 7 then "过去 7 天"
  else if days = 30 then "过去 30 天"
  else "过去 " ++ toString days ++ " 天"

/-- One printed line of the textual (ranked-list) report body: either a
numbered per-application entry (line 314) or the single overflow summary
(line 321). -/
inductive ReportLine where
  | entry (rank : ℕ) (name : String) (seconds : ℚ) (percentage : ℚ)
  | summary (remainingCount : ℤ) (remainingSeconds : ℚ)
deriving DecidableEq

/-- The ranked-list loop of `print_usage_report` (lines 309–322):
enumerate from 1, accumulate `displayed_seconds`, and after printing the
20th entry emit the overflow summary (when records remain) and stop. -/
def reportLoop (resolve : String → String) (total : ℚ) (totalCount : ℕ) :
    ℕ → ℚ → List (String × ℚ) → List ReportLine
  | _, _, [] => []
  | i, displayed, p :: rest =>
    let line := ReportLine.entry i (resolve p.1) p.2 (pctOf p.2 total)
    let displayed2 := displayed + p.2
    if 20 ≤ i then
      if 0 < (totalCount : ℤ) - 20 then
        [line, ReportLine.summary ((totalCount : ℤ) - 20) (total - displayed2)]
      else [line]
    else line :: reportLoop resolve total totalCount (i + 1) displayed2 rest

/-- The textual report body of `print_usage_report` (lines 253–322):
empty data short-circuits (line 257), otherwise the ranked-list loop
runs with `total_seconds` and the record count. -/
def printUsageLines (resolve : String → String) (usage : List (String × ℚ)) : List ReportLine :=
  match usage with
  | [] => []
  | _ :: _ => reportLoop resolve (totalSeconds usage) usage.length 1 0 usage

/-- The per-record percentages of a report, as computed at lines 168
and 312. -/
def percentages (usage : List (String × ℚ)) : List ℚ :=
  usage.map (fun p => pctOf p.2 (totalSeconds usage))

/-- Digit run of a Python decimal integer literal after its first digit:
single underscores are allowed between digits. -/
def pyDigitTail : List Char → Bool
  | [] => true
  | '_' :: c :: rest => c.isDigit && pyDigitTail rest
  | c :: rest => c.isDigit && pyDigitTail rest

/-- A non-empty digit run (with optional grouping underscores), the body
of a Python decimal integer literal. -/
def pyDigitRun : List Char → Bool
  | [] => false
  | c :: rest => c.isDigit && pyDigitTail rest

/-- Numeric value of a digit run, ignoring grouping underscores. -/
def pyDigitsVal (l : List Char) : ℕ :=
  l.foldl (fun acc c => if c = '_' then acc else 10 * acc + (c.toNat - 48)) 0

/-- Python `int(s)` on a decimal string: surrounding whitespace is
stripped, an optional single sign precedes a non-empty digit run;
`none` models the `ValueError` raised on any other input. -/
def pyInt (s : String) : Option ℤ :=
  match s.trim.data with
  | '+' :: rest => if pyDigitRun rest then some (pyDigitsVal rest : ℤ) else none
  | '-' :: rest => if pyDigitRun rest then some (-(pyDigitsVal rest : ℤ)) else none
  | rest => if pyDigitRun rest then some (pyDigitsVal rest : ℤ) else none

/-- The observable outcome of `main()` (lines 366–425): which report or
action is requested, a help or unknown-command message, or an uncaught
`ValueError` escaping from an unguarded `int(sys.argv[2])` call. -/
inductive MainOutcome where
  | report (days : ℤ) (visual : Bool) (debugMode : Bool)
  | exportJson (days : ℤ)
  | helpText
  | unknownCommand (cmd : String)
  | uncaughtValueError
deriving DecidableEq

/-- The command tokens recognised before the literal-day-count fallback
of `main()` (lines 375–390). -/
def knownTokens : List String :=
  ["1", "24h", "today", "7", "7d", "week", "30", "30d", "month",
   "v", "visual", "iphone", "export", "debug", "help"]

/-- The argument dispatch of `main()` (lines 366–425), on the argument
list `sys.argv[1:]`. The bare-token fallback (lines 419–425) guards
`int(command)` with `try/except ValueError`; the trailing day-count
arguments of the `visual`, `export` and `debug` presets (lines 382, 385,
388) call `int(sys.argv[2])` unguarded. -/
def dispatch (args : List String) : MainOutcome :=
  match args with
  | [] => .report 1 true false
  | cmd :: rest =>
    let command := cmd.toLower
    if command ∈ (["1", "24h", "today"] : List String) then .report 1 false false
    else if command ∈ (["7", "7d", "week"] : List String) then .report 7 false false
    else if command ∈ (["30", "30d", "month"] : List String) then .report 30 false false
    else if command ∈ (["v", "visual", "iphone"] : List String) then
      match rest with
      | [] => .report 1 true false
      | d :: _ =>
        match pyInt d with
        | some n => .report n true false
        | none => .uncaughtValueError
    else if command = "export" then
      match rest with
      | [] => .exportJson 1
      | d :: _ =>
        match pyInt d with
        | some n => .exportJson n
        | none => .uncaughtValueError
    else if command = "debug" then
      match rest with
      | [] => .report 1 false true
      | d :: _ =>
        match pyInt d with
        | some n => .report n false true
        | none => .uncaughtValueError
    else if command = "help" then .helpText
    else
      match pyInt command with
      | some n => .report n false false
      | none => .unknownCommand command


/-- Modelled from the spec (§4.4): bar length =
`round(seconds / max_seconds_in_report * fixed_width)` with
`fixed_width = 30`, stated with rounding to the nearest integer, to be
compared against the code's `barLen`. -/
def specRoundBarLen (seconds maxS : ℚ) : ℤ :=
  round (seconds / maxS * 30)

/-- The individually listed entries of the textual report, numbered
upward from `i` — the explicit form the pagination of `reportLoop` is
proved equal to. -/
def specEntries (resolve : String → String) (total : ℚ) :
    ℕ → List (String × ℚ) → List ReportLine
  | _, [] => []
  | i, p :: rest =>
    ReportLine.entry i (resolve p.1) p.2 (pctOf p.2 total) ::
      specEntries resolve total (i + 1) rest

/-- The pagination shape stated by the spec (§4.3, §8): the top 20
records listed individually, then one summary line carrying the
remaining record count and `total_seconds` minus the seconds of the 20
shown. -/
def specPaginated (resolve : String → String) (usage : List (String × ℚ)) : List ReportLine :=
  specEntries resolve (totalSeconds usage) 1 (usage.take 20) ++
    [ReportLine.summary ((usage.length : ℤ) - 20)
      (totalSeconds usage - ((usage.take 20).map Prod.snd).sum)]

/-- A concrete hour-of-day extraction (UTC) usable as the external
`datetime.fromtimestamp(...).hour` parameter in witnesses. -/
def utcHour (t : ℚ) : Fin 24 :=
  ⟨(pyTrunc (t / 3600)).toNat % 24, Nat.mod_lt _ (by norm_num)⟩

/-- A 25-record usage list for exercising the pagination. -/
def usageTwentyFive : List (String × ℚ) :=
  (List.range 25).map (fun k => (toString k, (61 : ℚ) + k))

/-- A single 100-second interval starting on the hour, for witnesses. -/
def safariInterval : UsageInterval :=
  ⟨"com.apple.Safari", 3600, 3700⟩

theorem strAppend_assoc (a b c : String) : a ++ b ++ c = a ++ (b ++ c) := by
  rcases a with ⟨la⟩
  rcases b with ⟨lb⟩
  rcases c with ⟨lc⟩
  show String.mk (la ++ lb ++ lc) = String.mk (la ++ (lb ++ lc))
  rw [List.append_assoc]

theorem roundHalfEven_intCast (k : ℤ) : roundHalfEven (k : ℚ) = k := by
  unfold roundHalfEven
  rw [Int.floor_intCast]
  rw [if_pos (by norm_num)]

theorem fmtFixed0_intCast (k : ℤ) : fmtFixed0 (k : ℚ) = toString k := by
  unfold fmtFixed0
  rw [roundHalfEven_intCast]

theorem fmtFixed1_intCast (k : ℤ) : fmtFixed1 (k : ℚ) = toString k ++ ".0" := by
  unfold fmtFixed1
  have h : (k : ℚ) * 10 = ((10 * k : ℤ) : ℚ) := by push_cast; ring
  rw [h, roundHalfEven_intCast, Int.mul_ediv_cancel_left _ (by norm_num),
    Int.mul_emod_right, strAppend_assoc]
  rfl

/-- Claim C9: the window-label mapping sends 1 to the past-24-hours
label, 7 and 30 to their named labels, and every other positive day
count `n` to the generic past-`n`-days label. -/
theorem periodLabel_window_map :
    periodLabel 1 = "过去 24 小时" ∧ periodLabel 7 = "过去 7 天" ∧
    periodLabel 30 = "过去 30 天" ∧
    ∀ n : ℤ, 0 < n → n ≠ 1 → n ≠ 7 → n ≠ 30 →
      periodLabel n = "过去 " ++ toString n ++ " 天" := by
  refine ⟨rfl, rfl, rfl, ?_⟩
  intro n _ h1 h7 h30
  simp [periodLabel, h1, h7, h30]

theorem periodLabel_window_map_witness : periodLabel 3 = "过去 3 天" :=
  periodLabel_window_map.2.2.2 3 (by norm_num) (by norm_num) (by norm_num) (by norm_num)

/-- Claim C10: in the sub-minute branch the seconds value is rounded to
the nearest whole number, so every input in `[59.5, 60)` renders as
`"60秒"` although it falls below the 60-second minutes threshold. -/
theorem formatTime_subminute_rounds_up (q : ℚ) (h1 : 119 / 2 ≤ q) (h2 : q < 60) :
    formatTime q = "60秒" := by
  have hfloor : ⌊q⌋ = 59 := by
    rw [Int.floor_eq_iff]
    constructor
    · push_cast
      linarith
    · push_cast
      linarith
  have hround : roundHalfEven q = 60 := by
    unfold roundHalfEven
    rw [hfloor]
    rcases lt_trichotomy (q - ((59 : ℤ) : ℚ)) (1 / 2) with hlt | heq | hgt
    · exfalso
      push_cast at hlt
      linarith
    · rw [if_neg (by rw [heq]; exact lt_irrefl _), if_neg (by rw [heq]; exact lt_irrefl _),
        if_neg (by norm_num)]
      norm_num
    · rw [if_neg (by linarith), if_pos hgt]
      norm_num
  unfold formatTime
  rw [if_pos h2]
  unfold fmtFixed0
  rw [hround]
  rfl

theorem formatTime_subminute_rounds_up_witness :
    (119 / 2 ≤ (119 / 2 : ℚ)) ∧ ((119 / 2 : ℚ) < 60) ∧ formatTime (119 / 2) = "60秒" :=
  ⟨le_refl _, by norm_num, formatTime_subminute_rounds_up (119 / 2) (le_refl _) (by norm_num)⟩

/-- Claim C1, counterexample: in the report `[("Safari", 120), ("Mail", 63)]`
the code's bar length for the 63-second record is `int(63/120*30) = 15`,
while the spec's `round(63/120*30)` is `16`. -/
theorem barLen_round_cex :
    barLen 63 (maxSeconds [("Safari", 120), ("Mail", 63)]) = 15 ∧
    specRoundBarLen 63 (maxSeconds [("Safari", 120), ("Mail", 63)]) = 16 ∧
    barLen 63 (maxSeconds [("Safari", 120), ("Mail", 63)]) ≠
      specRoundBarLen 63 (maxSeconds [("Safari", 120), ("Mail", 63)]) := by
  refine ⟨?_, ?_, ?_⟩ <;> with_unfolding_all decide

/-- Claim C1, amended: in bar-chart mode each record's bar length is
`⌊seconds / max_seconds_in_report * 30⌋` (Python `int` truncation, which
on these non-negative values is the floor, not rounding to nearest), and
the bar is that many filled glyphs followed by empty glyphs up to the
fixed width 30. -/
theorem barLen_floor (seconds maxS : ℚ) (h0 : 0 ≤ seconds) (h1 : 0 < maxS) :
    barLen seconds maxS = ⌊seconds / maxS * 30⌋ ∧
    mkBar seconds maxS =
      repChar '█' (⌊seconds / maxS * 30⌋).toNat ++
        repChar '░' ((30 : ℤ) - ⌊seconds / maxS * 30⌋).toNat := by
  have hq : 0 ≤ seconds / maxS * 30 := by positivity
  constructor
  · unfold barLen pyTrunc
    rw [if_pos hq]
  · unfold mkBar barLen pyTrunc
    rw [if_pos hq]

theorem barLen_floor_witness :
    (0 ≤ (63 : ℚ)) ∧ (0 < (120 : ℚ)) ∧
    (barLen 63 120 = ⌊(63 : ℚ) / 120 * 30⌋ ∧
      mkBar 63 120 =
        repChar '█' (⌊(63 : ℚ) / 120 * 30⌋).toNat ++
          repChar '░' ((30 : ℤ) - ⌊(63 : ℚ) / 120 * 30⌋).toNat) :=
  ⟨by norm_num, by norm_num, barLen_floor 63 120 (by norm_num) (by norm_num)⟩

set_option maxRecDepth 8000 in
/-- Claim C6: on an all-zero bucket mapping the histogram divisor is
replaced by 1, and a 10-line chart is still produced whose 8 level rows
are entirely unfilled. -/
theorem createHourlyChart_all_zero (hourly : Fin 24 → ℚ) (h : ∀ j, hourly j = 0) :
    (if pyMax (bucketValues hourly) 1 = 0 then (1 : ℚ) else pyMax (bucketValues hourly) 1) = 1 ∧
    (createHourlyChart hourly).take 8 = List.replicate 8 (repChar ' ' 24) ∧
    (createHourlyChart hourly).length = 10 := by
  have hh : hourly = fun _ => 0 := funext h
  subst hh
  refine ⟨?_, ?_, ?_⟩ <;> with_unfolding_all decide

theorem createHourlyChart_all_zero_witness :
    (∀ j : Fin 24, (fun _ : Fin 24 => (0 : ℚ)) j = 0) ∧
    ((if pyMax (bucketValues (fun _ => 0)) 1 = 0 then (1 : ℚ)
        else pyMax (bucketValues (fun _ => 0)) 1) = 1 ∧
      (createHourlyChart (fun _ => 0)).take 8 = List.replicate 8 (repChar ' ' 24) ∧
      (createHourlyChart (fun _ => 0)).length = 10) :=
  ⟨fun _ => rfl, createHourlyChart_all_zero (fun _ => 0) (fun _ => rfl)⟩

theorem roundHalfEven_nonneg (q : ℚ) (h : 0 ≤ q) : 0 ≤ roundHalfEven q := by
  have hf : 0 ≤ ⌊q⌋ := Int.floor_nonneg.mpr h
  unfold roundHalfEven
  split_ifs <;> omega

/-- Claim C3: the duration formatter renders whole seconds below one
minute, minutes with one decimal place below one hour, and above one
hour either hours with whole minutes (non-zero minute remainder) or
hours with one decimal place (zero remainder); in particular
`format(45) = "45秒"`, `format(90) = "1.5分钟"`,
`format(3660) = "1小时1分钟"` and `format(7200) = "2.0小时"`. -/
theorem formatTime_branches :
    formatTime 45 = "45秒" ∧ formatTime 90 = "1.5分钟" ∧
    formatTime 3660 = "1小时1分钟" ∧ formatTime 7200 = "2.0小时" ∧
    (∀ q : ℚ, 0 ≤ q → q < 60 → ∃ n : ℤ, 0 ≤ n ∧ formatTime q = toString n ++ "秒") ∧
    (∀ q : ℚ, 60 ≤ q → q < 3600 →
      ∃ i d : ℤ, 0 ≤ d ∧ d < 10 ∧
        formatTime q = toString i ++ "." ++ toString d ++ "分钟") ∧
    (∀ q : ℚ, 3600 ≤ q →
      (0 < pyFloorDiv (pyMod q 3600) 60 →
        formatTime q = toString (pyFloorDiv q 3600) ++ "小时" ++
          toString (pyFloorDiv (pyMod q 3600) 60) ++ "分钟") ∧
      (pyFloorDiv (pyMod q 3600) 60 ≤ 0 →
        formatTime q = toString (pyFloorDiv q 3600) ++ ".0小时")) := by
  refine ⟨by with_unfolding_all decide, by with_unfolding_all decide,
    by with_unfolding_all decide, by with_unfolding_all decide, ?_, ?_, ?_⟩
  · intro q h0 h2
    refine ⟨roundHalfEven q, roundHalfEven_nonneg q h0, ?_⟩
    unfold formatTime
    rw [if_pos h2]
    rfl
  · intro q h1 h2
    refine ⟨roundHalfEven (q / 60 * 10) / 10, roundHalfEven (q / 60 * 10) % 10,
      Int.emod_nonneg _ (by norm_num), Int.emod_lt_of_pos _ (by norm_num), ?_⟩
    unfold formatTime
    rw [if_neg (not_lt.mpr h1), if_pos h2]
    rfl
  · intro q h36
    have hn60 : ¬ q < 60 := not_lt.mpr (by linarith)
    have hn3600 : ¬ q < 3600 := not_lt.mpr h36
    constructor
    · intro hm
      unfold formatTime
      rw [if_neg hn60, if_neg hn3600]
      show (if 0 < pyFloorDiv (pyMod q 3600) 60 then
          fmtFixed0 ((pyFloorDiv q 3600 : ℤ) : ℚ) ++ "小时" ++
            fmtFixed0 ((pyFloorDiv (pyMod q 3600) 60 : ℤ) : ℚ) ++ "分钟"
        else fmtFixed1 ((pyFloorDiv q 3600 : ℤ) : ℚ) ++ "小时") = _
      rw [if_pos hm, fmtFixed0_intCast, fmtFixed0_intCast]
    · intro hm
      unfold formatTime
      rw [if_neg hn60, if_neg hn3600]
      show (if 0 < pyFloorDiv (pyMod q 3600) 60 then
          fmtFixed0 ((pyFloorDiv q 3600 : ℤ) : ℚ) ++ "小时" ++
            fmtFixed0 ((pyFloorDiv (pyMod q 3600) 60 : ℤ) : ℚ) ++ "分钟"
        else fmtFixed1 ((pyFloorDiv q 3600 : ℤ) : ℚ) ++ "小时") = _
      rw [if_neg (not_lt.mpr hm), fmtFixed1_intCast, strAppend_assoc]
      rfl

theorem formatTime_branches_witness :
    (∃ n : ℤ, 0 ≤ n ∧ formatTime 45 = toString n ++ "秒") ∧
    (∃ i d : ℤ, 0 ≤ d ∧ d < 10 ∧
      formatTime 90 = toString i ++ "." ++ toString d ++ "分钟") ∧
    (formatTime 3660 = toString (pyFloorDiv 3660 3600) ++ "小时" ++
      toString (pyFloorDiv (pyMod 3660 3600) 60) ++ "分钟") ∧
    (formatTime 7200 = toString (pyFloorDiv 7200 3600) ++ ".0小时") :=
  ⟨formatTime_branches.2.2.2.2.1 45 (by norm_num) (by norm_num),
   formatTime_branches.2.2.2.2.2.1 90 (by norm_num) (by norm_num),
   (formatTime_branches.2.2.2.2.2.2 3660 (by norm_num)).1 (by with_unfolding_all decide),
   (formatTime_branches.2.2.2.2.2.2 7200 (by norm_num)).2 (by with_unfolding_all decide)⟩

/-- Claim C7: in bar-chart mode, a record holding the report's (positive)
maximum seconds value renders a bar whose filled portion spans the whole
fixed width of 30, with no empty glyph. -/
theorem createBarChart_max_full (resolve : String → String) (usage : List (String × ℚ))
    (b : String) (s : ℚ) (hmem : (b, s) ∈ usage) (hmax : s = maxSeconds usage)
    (hpos : 0 < maxSeconds usage) :
    mkBar s (maxSeconds usage) = repChar '█' 30 ∧
    barChartLine resolve (maxSeconds usage) (totalSeconds usage) (b, s) ∈
      createBarChart resolve usage ∧
    ∃ pre suf : String,
      barChartLine resolve (maxSeconds usage) (totalSeconds usage) (b, s) =
        pre ++ repChar '█' 30 ++ suf := by
  have hs : 0 < s := lt_of_lt_of_eq hpos hmax.symm
  have hbar : mkBar s (maxSeconds usage) = repChar '█' 30 := by
    rw [← hmax]
    unfold mkBar barLen pyTrunc
    rw [div_self hs.ne', one_mul]
    rw [if_pos (by norm_num : (0 : ℚ) ≤ 30)]
    have hf : ⌊(30 : ℚ)⌋ = 30 := by norm_num
    rw [hf]
    with_unfolding_all decide
  refine ⟨hbar, ?_, ?_⟩
  · cases usage with
    | nil => cases hmem
    | cons p rest =>
      show _ ∈ (p :: rest).map (barChartLine resolve (maxSeconds (p :: rest)) (totalSeconds (p :: rest)))
      exact List.mem_map_of_mem _ hmem
  · refine ⟨padRight (truncName (resolve b)) 15 ++ " ",
      " " ++ padLeft (fmtFixed1 (pctOf s (totalSeconds usage))) 4 ++ "% (" ++
        formatTime s ++ ")", ?_⟩
    unfold barChartLine
    rw [hbar]
    simp only [strAppend_assoc]

theorem createBarChart_max_full_witness :
    ((("app", (100 : ℚ)) ∈ ([("app", 100)] : List (String × ℚ))) ∧
      (100 : ℚ) = maxSeconds [("app", 100)] ∧ 0 < maxSeconds [("app", (100 : ℚ))]) ∧
    (mkBar 100 (maxSeconds [("app", (100 : ℚ))]) = repChar '█' 30 ∧
      barChartLine id (maxSeconds [("app", (100 : ℚ))]) (totalSeconds [("app", 100)]) ("app", 100) ∈
        createBarChart id [("app", 100)] ∧
      ∃ pre suf : String,
        barChartLine id (maxSeconds [("app", (100 : ℚ))]) (totalSeconds [("app", 100)]) ("app", 100) =
          pre ++ repChar '█' 30 ++ suf) :=
  ⟨⟨by simp, rfl, by with_unfolding_all decide⟩,
    createBarChart_max_full id [("app", 100)] "app" 100 (by simp) rfl
      (by with_unfolding_all decide)⟩

/-- Claim C8: each record's percentage is `seconds / total_seconds * 100`
and the percentages of a non-empty report with positive total sum to
exactly 100 in exact arithmetic; on an empty report no percentage is
computed (both renderers short-circuit). -/
theorem percentages_sum_100 (resolve : String → String) (usage : List (String × ℚ))
    (_hne : usage ≠ []) (h2 : 0 < totalSeconds usage) :
    (∀ p ∈ usage, pctOf p.2 (totalSeconds usage) = p.2 / totalSeconds usage * 100) ∧
    (percentages usage).sum = 100 ∧
    createBarChart resolve [] = [] ∧ printUsageLines resolve [] = [] := by
  refine ⟨fun p _ => rfl, ?_, rfl, rfl⟩
  unfold percentages pctOf
  have hfun : (fun p : String × ℚ => p.2 / totalSeconds usage * 100)
      = fun p : String × ℚ => p.2 * (100 / totalSeconds usage) := by
    funext p
    ring
  rw [hfun, List.sum_map_mul_right]
  show totalSeconds usage * (100 / totalSeconds usage) = 100
  rw [← mul_div_assoc]
  exact mul_div_cancel_left₀ _ h2.ne'

theorem percentages_sum_100_witness :
    (([("a", 70), ("b", 80)] : List (String × ℚ)) ≠ [] ∧
      0 < totalSeconds [("a", 70), ("b", 80)]) ∧
    ((∀ p ∈ ([("a", 70), ("b", 80)] : List (String × ℚ)),
        pctOf p.2 (totalSeconds [("a", 70), ("b", 80)]) =
          p.2 / totalSeconds [("a", 70), ("b", 80)] * 100) ∧
      (percentages [("a", 70), ("b", 80)]).sum = 100 ∧
      createBarChart id [] = [] ∧ printUsageLines id [] = []) :=
  ⟨⟨by simp, by with_unfolding_all decide⟩,
    percentages_sum_100 id [("a", 70), ("b", 80)] (by simp) (by with_unfolding_all decide)⟩

theorem hourly_foldl_apply (hourOf : ℚ → Fin 24) (l : List UsageInterval) :
    ∀ (acc : Fin 24 → ℚ) (j : Fin 24),
      (l.foldl
        (fun acc r => Function.update acc (hourOf r.start) (acc (hourOf r.start) + r.duration))
        acc) j
        = acc j + ((l.filter (fun r => decide (hourOf r.start = j))).map
            UsageInterval.duration).sum := by
  induction l with
  | nil =>
    intro acc j
    simp
  | cons r rest ih =>
    intro acc j
    rw [List.foldl_cons, ih, List.filter_cons]
    by_cases hj : hourOf r.start = j
    · rw [hj, Function.update_same]
      simp only [hj, decide_True, if_pos]
      rw [List.map_cons, List.sum_cons]
      ring
    · rw [Function.update_noteq (fun he => hj he.symm)]
      simp only [hj, decide_False]
      rw [if_neg (by simp)]

theorem hourly_foldl_sum (hourOf : ℚ → Fin 24) (l : List UsageInterval) :
    ∀ acc : Fin 24 → ℚ,
      (∑ j : Fin 24,
        (l.foldl
          (fun acc r => Function.update acc (hourOf r.start) (acc (hourOf r.start) + r.duration))
          acc) j)
        = (∑ j : Fin 24, acc j) + (l.map UsageInterval.duration).sum := by
  induction l with
  | nil =>
    intro acc
    simp
  | cons r rest ih =>
    intro acc
    rw [List.foldl_cons, ih, List.map_cons, List.sum_cons]
    have hupd : (∑ j : Fin 24,
        Function.update acc (hourOf r.start) (acc (hourOf r.start) + r.duration) j)
        = (acc (hourOf r.start) + r.duration) +
            ∑ j ∈ Finset.univ \ {hourOf r.start}, acc j :=
      Finset.sum_update_of_mem (Finset.mem_univ _) _ _
    have hsplit : (∑ j : Fin 24, acc j)
        = acc (hourOf r.start) + ∑ j ∈ Finset.univ \ {hourOf r.start}, acc j := by
      rw [← Finset.erase_eq]
      exact (Finset.add_sum_erase _ _ (Finset.mem_univ _)).symm
    rw [hupd, hsplit]
    ring

/-- Claim C5: hourly bucketing adds each interval's full duration to the
bucket of its start hour (intervals are never split across hour
boundaries), so the 24 bucket values sum to the total duration of all
bucketed intervals. -/
theorem getHourlyUsage_buckets (hourOf : ℚ → Fin 24) (records : List UsageInterval)
    (_hdur : ∀ r ∈ records, 60 < UsageInterval.duration r) :
    (∀ j : Fin 24,
      getHourlyUsage hourOf records j
        = ((records.filter (fun r => decide (hourOf r.start = j))).map
            UsageInterval.duration).sum) ∧
    (∑ j : Fin 24, getHourlyUsage hourOf records j)
      = (records.map UsageInterval.duration).sum := by
  constructor
  · intro j
    unfold getHourlyUsage
    rw [hourly_foldl_apply]
    simp [bucketInit]
  · unfold getHourlyUsage
    rw [hourly_foldl_sum]
    simp [bucketInit]

theorem getHourlyUsage_buckets_witness :
    (∀ r ∈ [safariInterval], 60 < r.duration) ∧
    ((∀ j : Fin 24,
      getHourlyUsage utcHour [safariInterval] j
        = (([safariInterval].filter
            (fun r => decide (utcHour r.start = j))).map UsageInterval.duration).sum) ∧
    (∑ j : Fin 24, getHourlyUsage utcHour [safariInterval] j)
      = ([safariInterval].map UsageInterval.duration).sum) :=
  ⟨by with_unfolding_all decide,
    getHourlyUsage_buckets utcHour [safariInterval]
      (by with_unfolding_all decide)⟩

theorem specEntries_length (resolve : String → String) (total : ℚ) (l : List (String × ℚ)) :
    ∀ i : ℕ, (specEntries resolve total i l).length = l.length := by
  induction l with
  | nil =>
    intro i
    rfl
  | cons p rest ih =>
    intro i
    simp [specEntries, ih]

theorem reportLoop_spec (resolve : String → String) (total : ℚ) (n : ℕ) (hn : 20 < n)
    (l : List (String × ℚ)) :
    ∀ (i : ℕ) (disp : ℚ), 1 ≤ i → i ≤ 20 → 20 - i < l.length →
      reportLoop resolve total n i disp l
        = specEntries resolve total i (l.take (21 - i)) ++
          [ReportLine.summary ((n : ℤ) - 20)
            (total - (disp + ((l.take (21 - i)).map Prod.snd).sum))] := by
  induction l with
  | nil =>
    intro i disp h1 h2 h3
    simp at h3
  | cons p rest ih =>
    intro i disp h1 h2 h3
    have h3' : 20 - i < rest.length + 1 := by simpa using h3
    by_cases hi : 20 ≤ i
    · have hieq : i = 20 := le_antisymm h2 hi
      subst hieq
      have hpos : (0 : ℤ) < (n : ℤ) - 20 := by omega
      simp [reportLoop, specEntries, hpos]
    · have hlt : i < 20 := lt_of_not_ge hi
      have ht : 21 - i = (20 - i) + 1 := by omega
      have ht2 : 21 - (i + 1) = 20 - i := by omega
      simp only [reportLoop]
      rw [if_neg hi]
      rw [ih (i + 1) (disp + p.2) (by omega) (by omega) (by omega)]
      rw [ht2, ht, List.take_succ_cons]
      simp only [specEntries, List.map_cons, List.sum_cons, List.cons_append, add_assoc]

/-- Claim C4: with more than 20 records, the textual report lists exactly
the top 20 records individually followed by one summary line whose
remaining count is `length - 20` and whose remaining duration is
`total_seconds` minus the seconds of the 20 shown. -/
theorem printUsageLines_paginated (resolve : String → String) (usage : List (String × ℚ))
    (h : 20 < usage.length) :
    printUsageLines resolve usage = specPaginated resolve usage ∧
    (printUsageLines resolve usage).length = 21 := by
  have hmain : printUsageLines resolve usage = specPaginated resolve usage := by
    cases usage with
    | nil => simp at h
    | cons p rest =>
      show reportLoop resolve (totalSeconds (p :: rest)) (p :: rest).length 1 0 (p :: rest) = _
      rw [reportLoop_spec resolve (totalSeconds (p :: rest)) (p :: rest).length h (p :: rest) 1 0
        (le_refl 1) (by norm_num) (by omega)]
      simp [specPaginated]
  refine ⟨hmain, ?_⟩
  rw [hmain]
  unfold specPaginated
  rw [List.length_append, specEntries_length, List.length_take]
  simp
  omega

theorem printUsageLines_paginated_witness :
    20 < usageTwentyFive.length ∧
    (printUsageLines id usageTwentyFive = specPaginated id usageTwentyFive ∧
      (printUsageLines id usageTwentyFive).length = 21) :=
  ⟨by with_unfolding_all decide,
    printUsageLines_paginated id usageTwentyFive (by with_unfolding_all decide)⟩

/-- Claim C2, counterexample: the trailing day-count argument of the
`visual` mode preset is parsed by an unguarded `int(sys.argv[2])`
(line 382), so `visual abc` raises an uncaught `ValueError` instead of
reporting an unknown command. -/
theorem dispatch_trailing_arg_cex :
    dispatch ["visual", "abc"] = MainOutcome.uncaughtValueError := by
  with_unfolding_all decide

/-- Claim C2, amended: a bare command token that is neither a recognised
command nor a valid integer is reported as an unknown command (the
`try/except ValueError` fallback of lines 419–425); but an invalid
trailing day-count argument of the `visual`/`export`/`debug` presets
escapes as an uncaught `ValueError`. -/
theorem dispatch_unknown_token (t : String) (hp : pyInt t.toLower = none)
    (hk : t.toLower ∉ knownTokens) :
    dispatch [t] = MainOutcome.unknownCommand t.toLower := by
  have h := hk
  simp only [knownTokens, List.mem_cons, List.not_mem_nil, or_false] at h
  push_neg at h
  obtain ⟨h1, h2, h3, h4, h5, h6, h7, h8, h9, h10, h11, h12, h13, h14, h15⟩ := h
  show (let command := t.toLower
    if command ∈ (["1", "24h", "today"] : List String) then MainOutcome.report 1 false false
    else if command ∈ (["7", "7d", "week"] : List String) then MainOutcome.report 7 false false
    else if command ∈ (["30", "30d", "month"] : List String) then MainOutcome.report 30 false false
    else if command ∈ (["v", "visual", "iphone"] : List String) then MainOutcome.report 1 true false
    else if command = "export" then MainOutcome.exportJson 1
    else if command = "debug" then MainOutcome.report 1 false true
    else if command = "help" then MainOutcome.helpText
    else
      match pyInt command with
      | some n => MainOutcome.report n false false
      | none => MainOutcome.unknownCommand command) = MainOutcome.unknownCommand t.toLower
  show (if t.toLower ∈ (["1", "24h", "today"] : List String) then MainOutcome.report 1 false false
    else if t.toLower ∈ (["7", "7d", "week"] : List String) then MainOutcome.report 7 false false
    else if t.toLower ∈ (["30", "30d", "month"] : List String) then MainOutcome.report 30 false false
    else if t.toLower ∈ (["v", "visual", "iphone"] : List String) then MainOutcome.report 1 true false
    else if t.toLower = "export" then MainOutcome.exportJson 1
    else if t.toLower = "debug" then MainOutcome.report 1 false true
    else if t.toLower = "help" then MainOutcome.helpText
    else
      match pyInt t.toLower with
      | some n => MainOutcome.report n false false
      | none => MainOutcome.unknownCommand t.toLower) = MainOutcome.unknownCommand t.toLower
  rw [if_neg (by simp [h1, h2, h3]), if_neg (by simp [h4, h5, h6]),
    if_neg (by simp [h7, h8, h9]), if_neg (by simp [h10, h11, h12]),
    if_neg h13, if_neg h14, if_neg h15, hp]

theorem dispatch_unknown_token_witness :
    (pyInt ("xyz".toLower) = none ∧ "xyz".toLower ∉ knownTokens) ∧
    dispatch ["xyz"] = MainOutcome.unknownCommand ("xyz".toLower) :=
  ⟨⟨by with_unfolding_all decide, by with_unfolding_all decide⟩,
    dispatch_unknown_token "xyz" (by with_unfolding_all decide)
      (by with_unfolding_all decide)⟩

end ScreenTime
